import Mathlib

/-!
# Verification of the tabular record extractor

This development embeds, in Lean, the heuristic spreadsheet/text row parser
of the repository (the functions `isNamePart`, `parseStringData`,
`detectSubject` and `parseExcelData` of the excelParser module) and proves
or refutes the behavioural claims made about it.

Modelling conventions:
* A spreadsheet cell (as delivered by the external deserialization
  collaborator) is `Cell`: absent/blank (`empty`), a number (`num`, modelled
  as a rational: every JavaScript number relevant to the parser is a finite
  double and all comparisons performed on it are exact), or text (`str`).
* JavaScript string primitives (`trim`, `toLowerCase`, `toUpperCase`,
  `includes`, `split`, `parseFloat`, `parseInt`, `Number`, the few regexes
  of the source) are embedded as executable Lean functions over `List Char`.
  Case mapping covers ASCII, Latin-1 and the Latin extended ranges used by
  Vietnamese, which is the alphabet the parser's keyword tables live in.
* The workbook container (the external XLSX library) is abstracted: reading
  the byte stream either fails (the thrown exception captured by the
  parser's try/catch) or yields a `Workbook` of named sheets, each already
  converted to a row-major grid of cells.
* `Date.now()` is passed explicitly as a `now : Nat` parameter; it is used
  only to build record ids, exactly as in the source.
-/

/-- JavaScript whitespace as used by `trim` and `\s` (the characters that
actually occur in the parser's inputs). -/
def jsIsWs (c : Char) : Bool :=
  c == ' ' || c == '\t' || c == '\n' || c == '\r'

/-- Embedding of `String.prototype.trim`. -/
def jsTrim (s : String) : String :=
  String.mk (((s.toList.dropWhile jsIsWs).reverse.dropWhile jsIsWs).reverse)

/-- Lower-casing of one character as JavaScript `toLowerCase` performs it,
restricted to ASCII, Latin-1 and the Latin extended blocks used by
Vietnamese text. -/
def jsCharLower (c : Char) : Char :=
  let n := c.toNat
  if 65 ≤ n ∧ n ≤ 90 then Char.ofNat (n + 32)
  else if 0xC0 ≤ n ∧ n ≤ 0xDE ∧ n ≠ 0xD7 then Char.ofNat (n + 32)
  else if 0x100 ≤ n ∧ n ≤ 0x137 ∧ n % 2 = 0 then Char.ofNat (n + 1)
  else if 0x139 ≤ n ∧ n ≤ 0x147 ∧ n % 2 = 1 then Char.ofNat (n + 1)
  else if 0x14A ≤ n ∧ n ≤ 0x177 ∧ n % 2 = 0 then Char.ofNat (n + 1)
  else if n = 0x179 ∨ n = 0x17B ∨ n = 0x17D then Char.ofNat (n + 1)
  else if n = 0x1A0 ∨ n = 0x1AF then Char.ofNat (n + 1)
  else if 0x1E00 ≤ n ∧ n ≤ 0x1EFF ∧ n % 2 = 0 then Char.ofNat (n + 1)
  else c

/-- Upper-casing of one character as JavaScript `toUpperCase` performs it,
on the same character ranges. -/
def jsCharUpper (c : Char) : Char :=
  let n := c.toNat
  if 97 ≤ n ∧ n ≤ 122 then Char.ofNat (n - 32)
  else if 0xE0 ≤ n ∧ n ≤ 0xFE ∧ n ≠ 0xF7 then Char.ofNat (n - 32)
  else if n = 0xFF then Char.ofNat 0x178
  else if 0x101 ≤ n ∧ n ≤ 0x137 ∧ n % 2 = 1 then Char.ofNat (n - 1)
  else if 0x13A ≤ n ∧ n ≤ 0x148 ∧ n % 2 = 0 then Char.ofNat (n - 1)
  else if 0x14B ≤ n ∧ n ≤ 0x177 ∧ n % 2 = 1 then Char.ofNat (n - 1)
  else if n = 0x17A ∨ n = 0x17C ∨ n = 0x17E then Char.ofNat (n - 1)
  else if n = 0x1A1 ∨ n = 0x1B0 then Char.ofNat (n - 1)
  else if 0x1E01 ≤ n ∧ n ≤ 0x1EFF ∧ n % 2 = 1 then Char.ofNat (n - 1)
  else c

/-- Embedding of `String.prototype.toLowerCase`. -/
def jsLower (s : String) : String := String.mk (s.toList.map jsCharLower)

/-- Embedding of `String.prototype.toUpperCase`. -/
def jsUpper (s : String) : String := String.mk (s.toList.map jsCharUpper)

/-- Boolean prefix test on character lists. -/
def isPrefixB : List Char → List Char → Bool
  | [], _ => true
  | _ :: _, [] => false
  | a :: as, b :: bs => a == b && isPrefixB as bs

/-- Substring occurrence on character lists (`String.prototype.includes`). -/
def inclChars (pat : List Char) : List Char → Bool
  | [] => isPrefixB pat []
  | c :: rest => isPrefixB pat (c :: rest) || inclChars pat rest

/-- Embedding of `s.includes(pat)`. -/
def strIncludes (s pat : String) : Bool := inclChars pat.toList s.toList

/-- Embedding of `s.startsWith(pat)`. -/
def strStartsWith (s pat : String) : Bool := isPrefixB pat.toList s.toList

/-- Nonempty all-digit test: the regex `^\d+$`. -/
def isDigitsStr (s : String) : Bool :=
  !s.toList.isEmpty && s.toList.all Char.isDigit

/-- Decimal value of an all-digit string (`parseInt(s, 10)` / `Number(s)`
on a string already known to match `^\d+$`). -/
def digitsToNat (s : String) : Nat :=
  s.toList.foldl (fun a c => a * 10 + (c.toNat - 48)) 0

/-- Replace the first occurrence of a comma by a dot, on characters:
JavaScript `s.replace(',', '.')` replaces only the first occurrence. -/
def replFirstComma : List Char → List Char
  | [] => []
  | c :: cs => if c == ',' then '.' :: cs else c :: replFirstComma cs

/-- Embedding of `s.replace(',', '.')`. -/
def replFirstCommaStr (s : String) : String := String.mk (replFirstComma s.toList)

/-- Join strings with a single separator character (`Array.prototype.join`
for string elements). -/
def joinWithChar (sep : Char) : List String → String
  | [] => ""
  | [s] => s
  | s :: rest => s ++ String.singleton sep ++ joinWithChar sep rest

/-- Accumulating scanner for a run of decimal digits: returns the value,
the number of digits consumed and the remaining characters. -/
def takeDigitsAux (v cnt : Nat) : List Char → Nat × Nat × List Char
  | [] => (v, cnt, [])
  | c :: cs =>
    if c.isDigit then takeDigitsAux (v * 10 + (c.toNat - 48)) (cnt + 1) cs
    else (v, cnt, c :: cs)

/-- Value of the exponent suffix accepted by `parseFloat` (`e`/`E`, optional
sign, at least one digit; an incomplete exponent contributes nothing). -/
def parseFloatExp : List Char → Int
  | 'e' :: r => parseFloatExpSigned r
  | 'E' :: r => parseFloatExpSigned r
  | _ => 0
where
  parseFloatExpSigned : List Char → Int
    | '-' :: r2 =>
      let t := takeDigitsAux 0 0 r2
      if t.2.1 = 0 then 0 else -(t.1 : Int)
    | '+' :: r2 =>
      let t := takeDigitsAux 0 0 r2
      if t.2.1 = 0 then 0 else (t.1 : Int)
    | r2 =>
      let t := takeDigitsAux 0 0 r2
      if t.2.1 = 0 then 0 else (t.1 : Int)

/-- Embedding of JavaScript `parseFloat`: parse the longest numeric prefix
(optional sign, digits with optional fractional part, optional exponent).
`none` models `NaN` (no numeric prefix).  The literals `Infinity` and
`-Infinity`, which JavaScript also accepts, are modelled as `none`; no
behaviour the claims mention distinguishes the two (an infinite value
fails the range tests and the rating regexes exactly as `NaN` does on the
spreadsheet path). -/
def jsParseFloat (s : String) : Option ℚ :=
  let cs := s.toList.dropWhile jsIsWs
  let sgn : Bool × List Char :=
    match cs with
    | '-' :: r => (true, r)
    | '+' :: r => (false, r)
    | _ => (false, cs)
  let ipart := takeDigitsAux 0 0 sgn.2
  let afterInt := ipart.2.2
  let fpart : Nat × Nat × List Char :=
    match afterInt with
    | '.' :: r => takeDigitsAux 0 0 r
    | _ => (0, 0, afterInt)
  if ipart.2.1 = 0 ∧ fpart.2.1 = 0 then none
  else
    let mant : Nat := ipart.1 * 10 ^ fpart.2.1 + fpart.1
    let e := parseFloatExp fpart.2.2
    let num : Int :=
      match e with
      | .ofNat k => ((mant * 10 ^ k : Nat) : Int)
      | .negSucc _ => (mant : Int)
    let den : Nat :=
      match e with
      | .ofNat _ => 10 ^ fpart.2.1
      | .negSucc k => 10 ^ fpart.2.1 * 10 ^ (k + 1)
    some (mkRat (if sgn.1 then -num else num) den)

/-- Decimal rendering of a JavaScript number (`String(x)`).  Integral values
print exactly; for non-integral values we print the truncated decimal
expansion to 17 fractional digits.  (JavaScript prints the shortest decimal
that round-trips through the double; every use the parser makes of this
string is insensitive to the difference: the rendering of a number never
contains a letter, so it can never complete a keyword or rating match, and
its digit content is only ever compared against bounds that make the
distinction unobservable.) -/
def fracDigitsNat : Nat → Nat → Nat → List Char
  | 0, _, _ => []
  | _ + 1, 0, _ => []
  | n + 1, num, den =>
    Char.ofNat (48 + num * 10 / den) :: fracDigitsNat n (num * 10 % den) den

/-- Rendering `String(x)` of a JavaScript number `x`. -/
def jsNumToString (q : ℚ) : String :=
  if q.den = 1 then toString q.num
  else
    (if q.num < 0 then "-" else "") ++ toString (q.num.natAbs / q.den) ++ "." ++
      String.mk (fracDigitsNat 17 (q.num.natAbs % q.den) q.den)

/-- A spreadsheet cell as handed to the parser by the deserialization
collaborator: absent/blank, a (finite) number, or text. -/
inductive Cell where
  | empty : Cell
  | num (q : ℚ) : Cell
  | str (s : String) : Cell
deriving DecidableEq, Repr

/-- The blank test the row scanner performs:
`cell === undefined || cell === null || String(cell).trim() === ''`.
A numeric cell never prints blank. -/
def cellBlank : Cell → Bool
  | .empty => true
  | .num _ => false
  | .str s => jsTrim s == ""

/-- Rendering `String(cell).trim()` for the cells on which the parser takes this
string apart (a numeric cell renders through `jsNumToString`; an absent
cell only reaches this point behind the blank test, where the rendering is
irrelevant). -/
def cellTrimStr : Cell → String
  | .empty => ""
  | .num q => jsTrim (jsNumToString q)
  | .str s => jsTrim s

/-- The keyword denylist of `isNamePart` (exact-match, lower-cased),
transcribed from the source. -/
def namePartKeywords : List String :=
  ["stt", "họ", "tên", "thứ", "ngày", "tháng", "năm", "lớp", "trường",
   "dân", "tộc", "nữ", "nam", "điểm", "trung", "bình", "xếp", "loại",
   "ghi", "chú", "kết", "quả", "học", "kỳ", "môn",
   "gdcd", "công", "nghệ", "tin", "thể",
   "giáo", "viên", "người", "lập", "biểu", "thống", "kê",
   "tbm", "đtb", "hk1", "hk2", "cn", "tốt", "khá",
   "ubnd", "thcs", "thpt", "tiểu", "phòng", "sở", "đào", "tạo", "cộng", "hòa",
   "xã", "huyện", "tỉnh", "thành", "phố", "độc", "lập", "tự", "do",
   "đđg", "tx", "đgtx", "đđgc", "nhận", "xét", "khối",
   "số", "lượng", "tỉ", "lệ", "tỷ", "phần", "trăm", "tổng",
   "sinh", "đạt", "chưa"]

/-- The regex `^(T|K|TB|Y|G|Đ|CĐ|TX\d|HK\d)$` applied to the upper-cased
candidate in `isNamePart`. -/
def matchesRatingAbbrev (u : String) : Bool :=
  u ∈ ["T", "K", "TB", "Y", "G", "Đ", "CĐ"] ||
  (match u.toList with
   | ['T', 'X', d] => d.isDigit
   | ['H', 'K', d] => d.isDigit
   | _ => false)

/-- Embedding of `isNamePart`: is this cell likely a fragment of a student
name?  Only textual cells qualify; the checks run in source order. -/
def isNamePart (cell : Cell) : Bool :=
  match cell with
  | .str v =>
    let str := jsTrim v
    if str.toList.length = 0 then false
    else if str.toList.any Char.isDigit then false
    else if str.toList.length < 2 && jsUpper str ≠ "Ý" then false
    else
      let lower := jsLower str
      if lower ∈ ["stt", "đđgtx", "đđgck", "đtbmhk"] then false
      else if strIncludes lower "số lượng" || strIncludes lower "tỉ lệ" ||
              strIncludes lower "tỷ lệ" || strIncludes lower "thống kê" then false
      else if strIncludes lower "số học sinh" || lower == "đạt" || lower == "chưa đạt" then false
      else if namePartKeywords.any (fun k => lower == k) then false
      else if ["trường", "phòng", "ủy", "ban", "cộng hòa"].any (fun k => strIncludes lower k) then false
      else if matchesRatingAbbrev (jsUpper str) then false
      else true
  | _ => false

/-- The STT (leading row-sequence-number) check: the first cell, when it is
a number or an all-digit string, with value strictly between 0 and 1000. -/
def hasIndex (row : List Cell) : Bool :=
  match row.head? with
  | some (.num q) => decide (0 < q ∧ q < 1000)
  | some (.str s) =>
    if isDigitsStr (jsTrim s) then
      let v := digitsToNat (jsTrim s)
      decide (0 < v ∧ v < 1000)
    else false
  | _ => false

/-- The leading-numeric skip of the name loop: a numeric cell, or an
all-digit string. -/
def isLeadingNum : Cell → Bool
  | .num _ => true
  | .str s => isDigitsStr (jsTrim s)
  | .empty => false

/-- Name-span scanning, phase two: cells after the first name part.  A name
part is appended; a blank cell is tolerated when the immediately following
cell is again a name part (the merged-cell gap); any other cell ends the
span.  Returns the collected parts and the remaining cells strictly after
the span end (the cells with index greater than `nameEndIndex`). -/
def nameScanB : List Cell → List String × List Cell
  | [] => ([], [])
  | c :: rest =>
    if isNamePart c then
      let p := nameScanB rest
      (cellTrimStr c :: p.1, p.2)
    else if cellBlank c then
      match rest with
      | [] => ([], [c])
      | c2 :: _ => if isNamePart c2 then nameScanB rest else ([], c :: rest)
    else ([], c :: rest)

/-- Name-span scanning, phase one: skip cells (leading sequence numbers and
any other non-name cell) until the first name part, then run phase two. -/
def nameScanA : List Cell → List String × List Cell
  | [] => ([], [])
  | c :: rest =>
    if isNamePart c then
      let p := nameScanB rest
      (cellTrimStr c :: p.1, p.2)
    else nameScanA rest

/-- The assembled full name: space-join of the collected parts. -/
def rowFullName (row : List Cell) : String :=
  jsTrim (joinWithChar ' ' (nameScanA row).1)

/-- The cells strictly to the right of the name span's end index. -/
def nameSuffix (row : List Cell) : List Cell := (nameScanA row).2

/-- The name filtering block: a row survives only if its assembled name is
long enough (or is the one permitted single letter) and matches none of the
letterhead, footer and statistical patterns. -/
def nameAccepted (full : String) : Bool :=
  let u := jsUpper full
  if full.toList.length < 2 && full ≠ "Ý" then false
  else if strIncludes u "TRƯỜNG" || strIncludes u "THCS" || strIncludes u "THPT" ||
          strIncludes u "UBND" || strIncludes u "CỘNG HÒA" || strIncludes u "ĐỘC LẬP" then false
  else if strIncludes u "SỐ LƯỢNG" || strIncludes u "TỈ LỆ" || strIncludes u "TỶ LỆ" ||
          strIncludes u "TỔNG CỘNG" || strIncludes u "THỐNG KÊ" ||
          strStartsWith u "SỐ HỌC SINH" || u == "ĐẠT" || u == "CHƯA ĐẠT" then false
  else if strIncludes full "%" ||
          (strIncludes full "-" && decide (5 < full.toList.length) && !strIncludes full " ") then false
  else true

/-- The string the subject-mode scan derives from a cell:
`String(cell).trim().replace(',', '.')`. -/
def subjCellStr (c : Cell) : String := replFirstCommaStr (cellTrimStr c)

/-- Embedding of `parseFloat` applied to `subjCellStr`.  For a numeric cell the
string/parse round trip returns the number itself (JavaScript `parseFloat`
recovers any finite double from its `String` rendering), so the embedding
short-circuits it. -/
def cellParseNum : Cell → Option ℚ
  | .num q => some q
  | c => jsParseFloat (subjCellStr c)

/-- The subject-mode rating regex `^(T|K|Đ|CĐ|TB|G|Y|ĐẠT|CHƯA ĐẠT)$`. -/
def isSubjectRating (u : String) : Bool :=
  u ∈ ["T", "K", "Đ", "CĐ", "TB", "G", "Y", "ĐẠT", "CHƯA ĐẠT"]

/-- Subject-mode extraction: the source walks the row backward from its
last cell down to the name boundary; this function receives that cell list
already reversed (so the scan is a left-to-right walk of the reversed
suffix).  Blank cells are skipped; the first cell parsing as a number in
[0, 10] yields the score and stops; a cell that does not parse as a number
but matches the rating regex yields the rating and stops; anything else is
passed over. -/
def subjScanRev : List Cell → Option ℚ × Option String
  | [] => (none, none)
  | c :: rest =>
    if cellBlank c then subjScanRev rest
    else
      match cellParseNum c with
      | some q => if 0 ≤ q ∧ q ≤ 10 then (some q, none) else subjScanRev rest
      | none =>
        let u := jsUpper (subjCellStr c)
        if isSubjectRating u then (none, some u) else subjScanRev rest

/-- Subject-mode extraction over the suffix right of the name span. -/
def subjectScan (cells : List Cell) : Option ℚ × Option String :=
  subjScanRev cells.reverse

/-- The homeroom-mode rating regex
`^(T|K|Đ|CĐ|G|TB|Y|TỐT|KHÁ|ĐẠT|CHƯA ĐẠT|GIỎI|YẾU|TRUNG BÌNH|KÉM)$`. -/
def isHomeroomRating (u : String) : Bool :=
  u ∈ ["T", "K", "Đ", "CĐ", "G", "TB", "Y", "TỐT", "KHÁ", "ĐẠT",
       "CHƯA ĐẠT", "GIỎI", "YẾU", "TRUNG BÌNH", "KÉM"]

/-- The absence test of the homeroom scan: `String(cell).trim()` matches
`^\d+$` and its `parseInt` value is below 60.  For a numeric cell the
rendering matches `^\d+$` exactly when the value is a non-negative integer
(JavaScript prints integers up to 2^53 in plain digits; larger doubles
print in exponent notation, but such a value also fails the bound below,
so the embedding is observationally identical). -/
def cellDigitsVal : Cell → Option Nat
  | .empty => none
  | .num q => if q.den = 1 ∧ 0 ≤ q.num then some q.num.toNat else none
  | .str s => if isDigitsStr (jsTrim s) then some (digitsToNat (jsTrim s)) else none

/-- Homeroom-mode extraction, transcribing the forward loop: ratings are
appended in encounter order (and such a cell is never examined as an
absence), an in-range bare integer overwrites the absence count. -/
def hrScanAux (acc : List String) (abs : Option Nat) : List Cell → List String × Option Nat
  | [] => (acc, abs)
  | c :: rest =>
    if cellBlank c then hrScanAux acc abs rest
    else
      let u := jsUpper (cellTrimStr c)
      if isHomeroomRating u then hrScanAux (acc ++ [u]) abs rest
      else
        match cellDigitsVal c with
        | some n => if n < 60 then hrScanAux acc (some n) rest else hrScanAux acc abs rest
        | none => hrScanAux acc abs rest

/-- Homeroom-mode extraction over the suffix right of the name span. -/
def homeroomScan (cells : List Cell) : List String × Option Nat :=
  hrScanAux [] none cells

/-- The extractor's mode parameter. -/
inductive TeacherRole where
  | SUBJECT : TeacherRole
  | HOMEROOM : TeacherRole
deriving DecidableEq, Repr

/-- The data fields of one extracted student record (everything the row
scanner computes; the id, comment and processing flag are attached when the
record is built). -/
structure StudentFields where
  name : String
  subjectScore : Option ℚ := none
  subjectRating : Option String := none
  academicResult : Option String := none
  conductRating : Option String := none
  absences : Option Nat := none
deriving DecidableEq, Repr

/-- One extracted student record. -/
structure StudentData extends StudentFields where
  id : String
  comment : String := ""
  isProcessing : Bool := false
deriving DecidableEq, Repr

/-- Classification of one row: the name scan, the name filters, the
mode-dependent data extraction and the structural-evidence gate, in source
order.  Returns the record fields, or `none` when the row is discarded. -/
def processRow (role : TeacherRole) (row : List Cell) : Option StudentFields :=
  if row.isEmpty then none
  else
    let fullName := rowFullName row
    if nameAccepted fullName = false then none
    else
      match role with
      | .SUBJECT =>
        if hasIndex row = false ∧ (subjectScan (nameSuffix row)).1 = none ∧
           (subjectScan (nameSuffix row)).2 = none then none
        else
          some { name := fullName,
                 subjectScore := (subjectScan (nameSuffix row)).1,
                 subjectRating := (subjectScan (nameSuffix row)).2 }
      | .HOMEROOM =>
        let rs := (homeroomScan (nameSuffix row)).1
        let ab := (homeroomScan (nameSuffix row)).2
        if hasIndex row = false ∧ rs.head? = none ∧ rs[1]? = none ∧ ab = none then none
        else
          some { name := fullName,
                 academicResult := rs.head?,
                 conductRating := rs[1]?,
                 absences := ab }

/-- The string a cell contributes to `headers.flat().join(' ')`:
`Array.prototype.join` renders absent entries as the empty string. -/
def cellJoinStr : Cell → String
  | .empty => ""
  | .num q => jsNumToString q
  | .str s => s

/-- The concatenated, lower-cased text of the header rows:
`headers.flat().join(' ').toLowerCase()`. -/
def flatHeaders (headers : List (List Cell)) : String :=
  jsLower (joinWithChar ' ' (headers.flatten.map cellJoinStr))

/-- Every substring the subject-detection chain tests, in the order the
source tests them. -/
def subjectKeywords : List String :=
  ["toán", "văn", "việt", "ngữ", "lịch sử", "địa lý", "sử", "địa",
   "khoa học tự nhiên", "khtn", "lý", "hóa", "sinh", "vật lý", "vật lí",
   "sinh học", "hóa học", "tin", "tin học", "anh", "ngoại ngữ", "tiếng anh",
   "gdcd", "công dân", "công nghệ", "thể dục", "gdtc", "thể chất", "nhạc",
   "mỹ thuật", "âm nhạc", "nghệ thuật", "địa phương", "ndgdcđp",
   "trải nghiệm", "hướng nghiệp", "hđtn"]

/-- The closed set of canonical subject labels the detector can return. -/
def subjectLabels : List String :=
  ["Toán", "Văn", "LS & ĐL", "KHTN", "Tin học", "Ng.ngữ", "GDCD",
   "C.nghệ", "GDTC", "Nghệ thuật", "NDGDCĐP", "HĐTN&HN"]

/-- Embedding of `detectSubject`: the keyword-group chain over the
flattened, lower-cased header text, in source priority order. -/
def detectSubject (headers : List (List Cell)) : Option String :=
  let f := flatHeaders headers
  if strIncludes f "toán" then some "Toán"
  else if strIncludes f "văn" || strIncludes f "việt" || strIncludes f "ngữ" then some "Văn"
  else if strIncludes f "lịch sử" || strIncludes f "địa lý" || strIncludes f "sử" ||
          strIncludes f "địa" then some "LS & ĐL"
  else if strIncludes f "khoa học tự nhiên" || strIncludes f "khtn" || strIncludes f "lý" ||
          strIncludes f "hóa" || strIncludes f "sinh" || strIncludes f "vật lý" ||
          strIncludes f "vật lí" || strIncludes f "sinh học" || strIncludes f "hóa học" then some "KHTN"
  else if strIncludes f "tin" || strIncludes f "tin học" then some "Tin học"
  else if strIncludes f "anh" || strIncludes f "ngoại ngữ" || strIncludes f "tiếng anh" then some "Ng.ngữ"
  else if strIncludes f "gdcd" || strIncludes f "công dân" then some "GDCD"
  else if strIncludes f "công nghệ" then some "C.nghệ"
  else if strIncludes f "thể dục" || strIncludes f "gdtc" || strIncludes f "thể chất" then some "GDTC"
  else if strIncludes f "nhạc" || strIncludes f "mỹ thuật" || strIncludes f "âm nhạc" ||
          strIncludes f "nghệ thuật" then some "Nghệ thuật"
  else if strIncludes f "địa phương" || strIncludes f "ndgdcđp" then some "NDGDCĐP"
  else if strIncludes f "trải nghiệm" || strIncludes f "hướng nghiệp" ||
          strIncludes f "hđtn" then some "HĐTN&HN"
  else none

/-- The extractor's result shape. -/
structure ParseResult where
  students : List StudentData
  detectedSubject : Option String := none
deriving DecidableEq, Repr

/-- Attach the id (embedding the `Date.now()` timestamp and the original
row index) and the creation-time constants to the extracted fields. -/
def mkXlsStudent (now rowIndex : Nat) (f : StudentFields) : StudentData :=
  { toStudentFields := f,
    id := "student-xls-" ++ toString now ++ "-" ++ toString rowIndex,
    comment := "",
    isProcessing := false }

/-- The grid-level extractor: subject detection over the first five rows,
then the per-row classifier over every row, preserving row order.  (The
source also skips rows that are not arrays or are empty; a non-array row
cannot arise from the header-form conversion, and an empty row is
discarded by the classifier itself.) -/
def parseGrid (rawData : List (List Cell)) (role : TeacherRole) (now : Nat) : ParseResult :=
  if rawData.isEmpty then { students := [] }
  else
    { students := rawData.enum.filterMap fun p =>
        (processRow role p.2).map (mkXlsStudent now p.1),
      detectedSubject := detectSubject (rawData.take 5) }

/-- A parsed workbook as the external XLSX collaborator delivers it: the
sheet-name list and the sheet map, with each sheet already converted to a
grid by `sheet_to_json` with the row-array header option. -/
structure Workbook where
  sheetNames : List String
  sheets : List (String × List (List Cell))

/-- Lookup `workbook.Sheets[name]`. -/
def lookupSheet (wb : Workbook) (n : String) : Option (List (List Cell)) :=
  (wb.sheets.find? (fun p => p.1 == n)).map (fun p => p.2)

/-- Embedding of `parseExcelData`: the input is the outcome of reading the
byte stream with the external XLSX library — `Except.error` models the
exception the library throws on an unparsable container, which the
source's try/catch turns into an empty result.  The guard clauses for a
workbook without sheets, a missing first sheet and an empty grid follow
the source. -/
def parseExcelData (readResult : Except Unit Workbook) (role : TeacherRole)
    (now : Nat) : ParseResult :=
  match readResult with
  | .error _ => { students := [] }
  | .ok wb =>
    match wb.sheetNames with
    | [] => { students := [] }
    | n :: _ =>
      match lookupSheet wb n with
      | none => { students := [] }
      | some rawData => parseGrid rawData role now

/-- Split on runs of newlines: `text.split(/\n+/)`.  The flag records
whether we are inside a newline run (so further newlines are absorbed). -/
def splitRunsAux (skipNl : Bool) (cur : List Char) : List Char → List String
  | [] => [String.mk cur.reverse]
  | c :: cs =>
    if c == '\n' then
      if skipNl then splitRunsAux true cur cs
      else String.mk cur.reverse :: splitRunsAux true [] cs
    else splitRunsAux false (c :: cur) cs

/-- Embedding of `text.split(/\n+/)`. -/
def splitNewlineRuns (s : String) : List String :=
  splitRunsAux false [] s.toList

/-- Split on a separator character, keeping empty segments
(`String.prototype.split` with a one-character separator). -/
def splitOnCharAux (sep : Char) (cur : List Char) : List Char → List String
  | [] => [String.mk cur.reverse]
  | c :: cs =>
    if c == sep then String.mk cur.reverse :: splitOnCharAux sep [] cs
    else splitOnCharAux sep (c :: cur) cs

/-- Embedding of `s.split('\t')` and friends. -/
def splitOnChar (sep : Char) (s : String) : List String :=
  splitOnCharAux sep [] s.toList

/-- The first alternative of the fallback split regex: `^\d+[\.,]?\d*$`
(equivalently: all digits, or digits, one dot or comma, then digits). -/
def matchNumAlt (l : List Char) : Bool :=
  let ds := l.takeWhile Char.isDigit
  let rest := l.drop ds.length
  !ds.isEmpty &&
    (rest.isEmpty ||
      (match rest with
       | c :: tl => (c == '.' || c == ',') && tl.all Char.isDigit
       | [] => true))

/-- The second alternative of the fallback split regex: `^[a-zA-ZĐđC]+$`. -/
def matchAlphaAlt (l : List Char) : Bool :=
  !l.isEmpty && l.all fun c =>
    (('a' ≤ c && c ≤ 'z') || ('A' ≤ c && c ≤ 'Z') || c == 'Đ' || c == 'đ')

/-- The fallback column split for a line without tabs:
`trimmed.match(/^(.*?)(\d+[\.,]?\d*|[a-zA-ZĐđC]+)$/)`.  The lazy first
group means the engine commits to the shortest prefix whose remainder
matches one of the two anchored alternatives. -/
def regexSplit (s : String) : Option (String × String) :=
  go [] s.toList
where
  go (pre : List Char) : List Char → Option (String × String)
    | [] => none
    | c :: rest =>
      if matchNumAlt (c :: rest) || matchAlphaAlt (c :: rest) then
        some (String.mk pre.reverse, String.mk (c :: rest))
      else go (c :: pre) rest

/-- The header/footer suppression applied to a pasted line (lower-cased). -/
def textLineFiltered (lower : String) : Bool :=
  strIncludes lower "họ và tên" || strStartsWith lower "stt" ||
  strIncludes lower "người lập" || strIncludes lower "ngày" ||
  strIncludes lower "thcs" || strIncludes lower "ubnd" ||
  strIncludes lower "số lượng" || strIncludes lower "tỉ lệ" ||
  strIncludes lower "số học sinh"

/-- The column segments of a pasted line: tab-separated segments when a tab
occurs, otherwise the regex fallback split, otherwise the whole line. -/
def textParts (trimmed : String) : List String :=
  let parts := splitOnChar '\t' trimmed
  if parts.length < 2 then
    match regexSplit trimmed with
    | some m => [m.1, m.2]
    | none => [trimmed]
  else parts

/-- Embedding of `name.replace(/^\d+[\.\)\s]+/, '')`: strip one leading run of digits
followed by at least one dot, closing parenthesis or whitespace. -/
def stripLeadingIndex (s : String) : String :=
  let cs := s.toList
  let ds := cs.takeWhile Char.isDigit
  let rest := cs.drop ds.length
  let ps := rest.takeWhile fun c => c == '.' || c == ')' || jsIsWs c
  if !ds.isEmpty && !ps.isEmpty then String.mk (rest.drop ps.length) else s

/-- The trailing segment of a pasted line, when the line has at least two
segments: `parts[parts.length - 1].trim().replace(',', '.')`. -/
def textLastPart (trimmed : String) : Option String :=
  let parts := textParts trimmed
  if 1 < parts.length then
    some (replFirstCommaStr (jsTrim (parts.getLast?.getD "")))
  else none

/-- The homeroom rating regex of the text path, `/^(T|K|Đ|CĐ|G|TB|Y)$/i`,
after upper-casing. -/
def isTextHomeroomRating (u : String) : Bool :=
  u ∈ ["T", "K", "Đ", "CĐ", "G", "TB", "Y"]

/-- Per-line classification of the freeform text path (`parseStringData`),
in source order: trim, suppression filters, column split, name
validation, leading-index strip, then the single data field. -/
def processTextLine (role : TeacherRole) (line : String) : Option StudentFields :=
  let trimmed := jsTrim line
  if trimmed == "" then none
  else if textLineFiltered (jsLower trimmed) then none
  else
    let parts := textParts trimmed
    let name := jsTrim (parts.headD "")
    if name == "" || isDigitsStr name then none
    else
      let cleanName := jsTrim (stripLeadingIndex name)
      let base : StudentFields := { name := cleanName }
      match textLastPart trimmed with
      | none => some base
      | some lp =>
        match role with
        | .SUBJECT =>
          match jsParseFloat lp with
          | some q => some { base with subjectScore := some q }
          | none => some { base with subjectRating := some (jsUpper lp) }
        | .HOMEROOM =>
          if isTextHomeroomRating (jsUpper lp) then
            some { base with academicResult := some (jsUpper lp) }
          else some base

/-- Attach the text-path id to the extracted fields. -/
def mkTxtStudent (now idx : Nat) (f : StudentFields) : StudentData :=
  { toStudentFields := f,
    id := "student-txt-" ++ toString now ++ "-" ++ toString idx,
    comment := "",
    isProcessing := false }

/-- Embedding of `parseStringData`: split the pasted text on newline runs
and classify each line. -/
def parseStringData (text : String) (role : TeacherRole) (now : Nat) : List StudentData :=
  (splitNewlineRuns text).enum.filterMap fun p =>
    (processTextLine role p.2).map (mkTxtStudent now p.1)

/-- Classification of one suffix cell by the subject-mode scan: skipped
(blank, an out-of-range number, or an unrecognized token), a score hit
(parses as a number in [0, 10]), or a rating hit (does not parse as a
number and matches the rating regex). -/
def cellSubjClass (c : Cell) : Option (ℚ ⊕ String) :=
  if cellBlank c then none
  else
    match cellParseNum c with
    | some q => if 0 ≤ q ∧ q ≤ 10 then some (Sum.inl q) else none
    | none =>
      if isSubjectRating (jsUpper (subjCellStr c)) then
        some (Sum.inr (jsUpper (subjCellStr c)))
      else none

/-- The rating contribution of one suffix cell in the homeroom scan. -/
def hrRatingOf (c : Cell) : Option String :=
  if cellBlank c then none
  else if isHomeroomRating (jsUpper (cellTrimStr c)) then
    some (jsUpper (cellTrimStr c))
  else none

/-- The absence contribution of one suffix cell in the homeroom scan (a
cell recognized as a rating is never examined as an absence). -/
def hrAbsOf (c : Cell) : Option Nat :=
  if cellBlank c then none
  else if isHomeroomRating (jsUpper (cellTrimStr c)) then none
  else
    match cellDigitsVal c with
    | some n => if n < 60 then some n else none
    | none => none

/-! ## Structural lemmas about the row classifier -/

theorem processRow_subject_eq {row : List Cell} {f : StudentFields}
    (h : processRow .SUBJECT row = some f) :
    f = { name := rowFullName row,
          subjectScore := (subjectScan (nameSuffix row)).1,
          subjectRating := (subjectScan (nameSuffix row)).2 } := by
  simp only [processRow] at h
  split at h
  · exact absurd h (by simp)
  · split at h
    · exact absurd h (by simp)
    · split at h
      · exact absurd h (by simp)
      · exact (Option.some_inj.mp h).symm

theorem processRow_homeroom_eq {row : List Cell} {f : StudentFields}
    (h : processRow .HOMEROOM row = some f) :
    f = { name := rowFullName row,
          academicResult := (homeroomScan (nameSuffix row)).1.head?,
          conductRating := (homeroomScan (nameSuffix row)).1[1]?,
          absences := (homeroomScan (nameSuffix row)).2 } := by
  simp only [processRow] at h
  split at h
  · exact absurd h (by simp)
  · split at h
    · exact absurd h (by simp)
    · split at h
      · exact absurd h (by simp)
      · exact (Option.some_inj.mp h).symm

theorem subjScanRev_not_both (l : List Cell) :
    (subjScanRev l).1 = none ∨ (subjScanRev l).2 = none := by
  induction l with
  | nil => exact Or.inl rfl
  | cons c rest ih =>
    simp only [subjScanRev]
    split
    · exact ih
    · split
      · split
        · exact Or.inr rfl
        · exact ih
      · split
        · exact Or.inl rfl
        · exact ih

theorem subjScanRev_none {l : List Cell} (h : subjScanRev l = (none, none)) :
    ∀ c ∈ l, cellSubjClass c = none := by
  induction l with
  | nil => intro c hc; exact absurd hc (List.not_mem_nil c)
  | cons c rest ih =>
    intro x hx
    simp only [subjScanRev] at h
    rcases List.mem_cons.mp hx with hx | hx
    · subst hx
      unfold cellSubjClass
      split at h
      · simp [cellSubjClass, *]
      · split at h
        · split at h
          · exact absurd h (by simp)
          · simp only [*, if_neg]
            split
            · simp_all
            · split <;> simp_all
        · split at h
          · exact absurd h (by simp)
          · simp_all
    · -- x comes from the tail; in every non-terminating branch the scan
      -- recursed into the tail with the same result
      split at h
      · exact ih h x hx
      · split at h
        · split at h
          · exact absurd h (by simp)
          · exact ih h x hx
        · split at h
          · exact absurd h (by simp)
          · exact ih h x hx

theorem subjScanRev_score {l : List Cell} {q : ℚ} (h : (subjScanRev l).1 = some q) :
    ∃ pre c post, l = pre ++ c :: post ∧ (∀ x ∈ pre, cellSubjClass x = none) ∧
      cellSubjClass c = some (Sum.inl q) := by
  induction l with
  | nil => exact absurd h (by simp [subjScanRev])
  | cons c rest ih =>
    simp only [subjScanRev] at h
    split at h
    next hb =>
      obtain ⟨pre, c', post, hsplit, hpre, hc⟩ := ih h
      refine ⟨c :: pre, c', post, by simp [hsplit], ?_, hc⟩
      intro x hx
      rcases List.mem_cons.mp hx with hx | hx
      · subst hx; simp [cellSubjClass, hb]
      · exact hpre x hx
    next hb =>
      split at h
      next q' hq =>
        split at h
        next hr =>
          have hqq : q' = q := by simpa using h
          subst hqq
          exact ⟨[], c, rest, rfl, by simp, by simp [cellSubjClass, hb, hq, hr]⟩
        next hr =>
          obtain ⟨pre, c', post, hsplit, hpre, hc⟩ := ih h
          refine ⟨c :: pre, c', post, by simp [hsplit], ?_, hc⟩
          intro x hx
          rcases List.mem_cons.mp hx with hx | hx
          · subst hx; simp [cellSubjClass, hb, hq, hr]
          · exact hpre x hx
      next hq =>
        split at h
        next hr => exact absurd h (by simp)
        next hr =>
          obtain ⟨pre, c', post, hsplit, hpre, hc⟩ := ih h
          refine ⟨c :: pre, c', post, by simp [hsplit], ?_, hc⟩
          intro x hx
          rcases List.mem_cons.mp hx with hx | hx
          · subst hx; simp [cellSubjClass, hb, hq, hr]
          · exact hpre x hx

theorem subjScanRev_rating {l : List Cell} {u : String} (h : (subjScanRev l).2 = some u) :
    ∃ pre c post, l = pre ++ c :: post ∧ (∀ x ∈ pre, cellSubjClass x = none) ∧
      cellSubjClass c = some (Sum.inr u) := by
  induction l with
  | nil => exact absurd h (by simp [subjScanRev])
  | cons c rest ih =>
    simp only [subjScanRev] at h
    split at h
    next hb =>
      obtain ⟨pre, c', post, hsplit, hpre, hc⟩ := ih h
      refine ⟨c :: pre, c', post, by simp [hsplit], ?_, hc⟩
      intro x hx
      rcases List.mem_cons.mp hx with hx | hx
      · subst hx; simp [cellSubjClass, hb]
      · exact hpre x hx
    next hb =>
      split at h
      next q' hq =>
        split at h
        next hr => exact absurd h (by simp)
        next hr =>
          obtain ⟨pre, c', post, hsplit, hpre, hc⟩ := ih h
          refine ⟨c :: pre, c', post, by simp [hsplit], ?_, hc⟩
          intro x hx
          rcases List.mem_cons.mp hx with hx | hx
          · subst hx; simp [cellSubjClass, hb, hq, hr]
          · exact hpre x hx
      next hq =>
        split at h
        next hr =>
          have huu : jsUpper (subjCellStr c) = u := by simpa using h
          exact ⟨[], c, rest, rfl, by simp,
            by simp [cellSubjClass, hb, hq, huu ▸ hr, huu]⟩
        next hr =>
          obtain ⟨pre, c', post, hsplit, hpre, hc⟩ := ih h
          refine ⟨c :: pre, c', post, by simp [hsplit], ?_, hc⟩
          intro x hx
          rcases List.mem_cons.mp hx with hx | hx
          · subst hx; simp [cellSubjClass, hb, hq, hr]
          · exact hpre x hx

theorem or_getLast_cons (n : Nat) (xs : List Nat) (abs : Option Nat) :
    ((n :: xs).getLast?).or abs = (xs.getLast?).or (some n) := by
  induction xs with
  | nil => rfl
  | cons y ys _ => rfl

theorem hrScanAux_eq (l : List Cell) :
    ∀ acc abs, hrScanAux acc abs l =
      (acc ++ l.filterMap hrRatingOf, ((l.filterMap hrAbsOf).getLast?).or abs) := by
  induction l with
  | nil => intro acc abs; simp [hrScanAux, Option.or]
  | cons c rest ih =>
    intro acc abs
    simp only [hrScanAux]
    split
    next hb =>
      have h1 : hrRatingOf c = none := by simp [hrRatingOf, hb]
      have h2 : hrAbsOf c = none := by simp [hrAbsOf, hb]
      rw [ih]
      simp [List.filterMap_cons, h1, h2]
    next hb =>
      split
      next hrat =>
        have h1 : hrRatingOf c = some (jsUpper (cellTrimStr c)) := by
          simp [hrRatingOf, hb, hrat]
        have h2 : hrAbsOf c = none := by simp [hrAbsOf, hb, hrat]
        rw [ih]
        simp [List.filterMap_cons, h1, h2]
      next hrat =>
        split
        next n hn =>
          split
          next hlt =>
            have h1 : hrRatingOf c = none := by simp [hrRatingOf, hb, hrat]
            have h2 : hrAbsOf c = some n := by simp [hrAbsOf, hb, hrat, hn, hlt]
            rw [ih]
            simp only [List.filterMap_cons, h1, h2]
            rw [or_getLast_cons]
          next hlt =>
            have h1 : hrRatingOf c = none := by simp [hrRatingOf, hb, hrat]
            have h2 : hrAbsOf c = none := by simp [hrAbsOf, hb, hrat, hn, hlt]
            rw [ih]
            simp [List.filterMap_cons, h1, h2]
        next hn =>
          have h1 : hrRatingOf c = none := by simp [hrRatingOf, hb, hrat]
          have h2 : hrAbsOf c = none := by simp [hrAbsOf, hb, hrat, hn]
          rw [ih]
          simp [List.filterMap_cons, h1, h2]

theorem homeroomScan_eq (cells : List Cell) :
    homeroomScan cells =
      (cells.filterMap hrRatingOf, (cells.filterMap hrAbsOf).getLast?) := by
  rw [homeroomScan, hrScanAux_eq]
  cases h : (cells.filterMap hrAbsOf).getLast? <;> simp [Option.or]

theorem nameScanB_suffix_spec (cells : List Cell) :
    (∃ pre, cells = pre ++ (nameScanB cells).2) ∧
    ((nameScanB cells).2 = [] ∨
      ∃ c rest2, (nameScanB cells).2 = c :: rest2 ∧ isNamePart c = false ∧
        (cellBlank c = true → Option.all (fun c2 => !isNamePart c2) rest2.head? = true)) := by
  induction cells with
  | nil => exact ⟨⟨[], rfl⟩, Or.inl rfl⟩
  | cons c rest ih =>
    by_cases hn : isNamePart c = true
    · have he : (nameScanB (c :: rest)).2 = (nameScanB rest).2 := by
        simp [nameScanB, hn]
      obtain ⟨⟨pre, hpre⟩, hdisj⟩ := ih
      rw [he]
      exact ⟨⟨c :: pre, by rw [List.cons_append, ← hpre]⟩, hdisj⟩
    · by_cases hb : cellBlank c = true
      · cases rest with
        | nil =>
          have he : (nameScanB [c]).2 = [c] := by simp [nameScanB, hn, hb]
          rw [he]
          exact ⟨⟨[], rfl⟩, Or.inr ⟨c, [], rfl, by simpa using hn, fun _ => rfl⟩⟩
        | cons c2 rest2 =>
          by_cases hn2 : isNamePart c2 = true
          · have he : (nameScanB (c :: c2 :: rest2)).2 = (nameScanB (c2 :: rest2)).2 := by
              simp [nameScanB, hn, hb, hn2]
            obtain ⟨⟨pre, hpre⟩, hdisj⟩ := ih
            rw [he]
            exact ⟨⟨c :: pre, by rw [List.cons_append, ← hpre]⟩, hdisj⟩
          · have he : (nameScanB (c :: c2 :: rest2)).2 = c :: c2 :: rest2 := by
              simp [nameScanB, hn, hb, hn2]
            rw [he]
            refine ⟨⟨[], rfl⟩, Or.inr ⟨c, c2 :: rest2, rfl, by simpa using hn, ?_⟩⟩
            intro _
            simp [Option.all, hn2]
      · have he : (nameScanB (c :: rest)).2 = c :: rest := by
          cases rest <;> simp [nameScanB, hn, hb]
        rw [he]
        refine ⟨⟨[], rfl⟩, Or.inr ⟨c, rest, rfl, by simpa using hn, ?_⟩⟩
        intro hbc
        exact absurd hbc hb

theorem processRow_emits_gate {role : TeacherRole} {row : List Cell} {f : StudentFields}
    (h : processRow role row = some f) :
    hasIndex row = true ∨
      (match role with
       | .SUBJECT => f.subjectScore ≠ none ∨ f.subjectRating ≠ none
       | .HOMEROOM => f.academicResult ≠ none ∨ f.conductRating ≠ none ∨ f.absences ≠ none) := by
  cases role with
  | SUBJECT =>
    have hf := processRow_subject_eq h
    subst hf
    simp only [processRow] at h
    split at h
    · exact absurd h (by simp)
    · split at h
      · exact absurd h (by simp)
      · split at h
        · exact absurd h (by simp)
        next hc =>
          by_cases hi : hasIndex row = true
          · exact Or.inl hi
          · right
            rcases not_and_or.mp hc with h1 | h23
            · exact absurd (by simpa using hi) h1
            · simpa using not_and_or.mp h23
  | HOMEROOM =>
    have hf := processRow_homeroom_eq h
    subst hf
    simp only [processRow] at h
    split at h
    · exact absurd h (by simp)
    · split at h
      · exact absurd h (by simp)
      · split at h
        · exact absurd h (by simp)
        next hc =>
          by_cases hi : hasIndex row = true
          · exact Or.inl hi
          · right
            rcases not_and_or.mp hc with h1 | h23
            · exact absurd (by simpa using hi) h1
            · rcases not_and_or.mp h23 with h2 | h34
              · exact Or.inl h2
              · rcases not_and_or.mp h34 with h3 | h4
                · exact Or.inr (Or.inl h3)
                · exact Or.inr (Or.inr h4)

theorem processRow_no_name {role : TeacherRole} {row : List Cell}
    (h : (nameScanA row).1 = []) : processRow role row = none := by
  simp only [processRow]
  split
  · rfl
  · have h0 : rowFullName row = "" := by rw [rowFullName, h]; rfl
    rw [h0]
    have hna : nameAccepted "" = false := by decide
    simp [hna]

theorem processRow_subject_index_only {row : List Cell}
    (hi : hasIndex row = true) (hacc : nameAccepted (rowFullName row) = true)
    (hscan : subjectScan (nameSuffix row) = (none, none)) :
    processRow .SUBJECT row = some { name := rowFullName row } := by
  have hne : row.isEmpty = false := by
    cases row with
    | nil => exact absurd hi (by simp [hasIndex])
    | cons a l => rfl
  simp only [processRow, hne]
  simp [hacc, hi, hscan]

theorem hrRating_abs_exclusive (c : Cell) : hrRatingOf c = none ∨ hrAbsOf c = none := by
  by_cases hb : cellBlank c = true
  · exact Or.inl (by simp [hrRatingOf, hb])
  · by_cases hr : isHomeroomRating (jsUpper (cellTrimStr c)) = true
    · exact Or.inr (by simp [hrAbsOf, hb, hr])
    · exact Or.inl (by simp [hrRatingOf, hb, hr])

theorem mem_enumFrom_snd {α : Type} :
    ∀ (l : List α) (n : Nat) (p : Nat × α), p ∈ l.enumFrom n → p.2 ∈ l
  | [], _, _, h => absurd h (List.not_mem_nil _)
  | a :: as, n, p, h => by
    rcases List.mem_cons.mp h with h | h
    · subst h
      exact List.mem_cons_self _ _
    · exact List.mem_cons_of_mem _ (mem_enumFrom_snd as (n + 1) p h)

theorem mkXls_toFields (now i : Nat) (f : StudentFields) :
    (mkXlsStudent now i f).toStudentFields = f := rfl

/-! ## Claim theorems -/

/-- C1, counterexample to the claim as stated.  On the row
`["1", "An", "Hùng", "8", "T"]` in subject mode the suffix right of the
name span is `["8", "T"]`; the cell `"8"` parses as the number 8, which
lies in [0, 10], so by the claim `subjectScore` ought to be set (the
rating fallback being reserved for rows with no in-range numeric cell
anywhere right of the name span).  The code instead stops the backward
scan at `"T"`, emitting `subjectRating = "T"` and no score. -/
theorem c1_counterexample :
    processRow .SUBJECT [.str "1", .str "An", .str "Hùng", .str "8", .str "T"] =
      some { name := "An Hùng", subjectRating := some "T" } ∧
    nameSuffix [.str "1", .str "An", .str "Hùng", .str "8", .str "T"] = [.str "8", .str "T"] ∧
    cellParseNum (.str "8") = some (mkRat 8 1) ∧
    (0 ≤ mkRat 8 1 ∧ mkRat 8 1 ≤ 10) ∧
    ({ name := "An Hùng", subjectRating := some "T" } : StudentFields).subjectScore = none := by
  exact ⟨by decide, by decide, by decide, by decide, rfl⟩

/-- C1 (amended): in subject mode, for every emitted record the backward
scan is a rightmost-first-match scan: when `subjectScore = some q` there is
a suffix cell classified as a score hit with value `q` such that every cell
to its right is a non-match (blank, out-of-range number, or unrecognized
token), and when `subjectRating = some u` there is a suffix cell classified
as a rating hit `u` with every cell to its right a non-match; at most one
of the two fields is ever set.  (The claim's stronger priority — a number
in [0, 10] anywhere in the suffix beating a rating code to its right — does
not hold; see the counterexample.) -/
theorem c1_subject_scan_rightmost_match (row : List Cell) (f : StudentFields)
    (h : processRow .SUBJECT row = some f) :
    (∀ q, f.subjectScore = some q →
       ∃ l1 c l2, nameSuffix row = l1 ++ c :: l2 ∧ cellSubjClass c = some (Sum.inl q) ∧
         ∀ x ∈ l2, cellSubjClass x = none) ∧
    (∀ u, f.subjectRating = some u →
       ∃ l1 c l2, nameSuffix row = l1 ++ c :: l2 ∧ cellSubjClass c = some (Sum.inr u) ∧
         ∀ x ∈ l2, cellSubjClass x = none) ∧
    (f.subjectScore = none ∨ f.subjectRating = none) := by
  have hf := processRow_subject_eq h
  subst hf
  refine ⟨?_, ?_, by simpa [subjectScan] using subjScanRev_not_both (nameSuffix row).reverse⟩
  · intro q hq
    simp only [subjectScan] at hq
    obtain ⟨pre, c, post, hsplit, hpre, hc⟩ := subjScanRev_score hq
    refine ⟨post.reverse, c, pre.reverse, ?_, hc, ?_⟩
    · have := congrArg List.reverse hsplit
      simpa [List.reverse_append] using this
    · intro x hx
      exact hpre x (List.mem_reverse.mp hx)
  · intro u hu
    simp only [subjectScan] at hu
    obtain ⟨pre, c, post, hsplit, hpre, hc⟩ := subjScanRev_rating hu
    refine ⟨post.reverse, c, pre.reverse, ?_, hc, ?_⟩
    · have := congrArg List.reverse hsplit
      simpa [List.reverse_append] using this
    · intro x hx
      exact hpre x (List.mem_reverse.mp hx)

/-- Witness for the amended C1 theorem at the counterexample row: the
rating branch applies with the matched cell `"T"` and nothing after it. -/
theorem c1_witness :
    ∃ l1 c l2,
      nameSuffix [.str "1", .str "An", .str "Hùng", .str "8", .str "T"] = l1 ++ c :: l2 ∧
      cellSubjClass c = some (Sum.inr "T") ∧ ∀ x ∈ l2, cellSubjClass x = none :=
  (c1_subject_scan_rightmost_match [.str "1", .str "An", .str "Hùng", .str "8", .str "T"]
    { name := "An Hùng", subjectRating := some "T" } (by decide)).2.1 "T" rfl

/-- C4, counterexample to the claim as stated: a row with a valid leading
index and a valid name but no data cells is still emitted (by the
structural-evidence gate), and then neither `subjectScore` nor
`subjectRating` is set — refuting "exactly one of the two is set". -/
theorem c4_counterexample :
    processRow .SUBJECT [.str "1", .str "An", .str "Hùng"] =
      some { name := "An Hùng" } ∧
    ({ name := "An Hùng" } : StudentFields).subjectScore = none ∧
    ({ name := "An Hùng" } : StudentFields).subjectRating = none :=
  ⟨by decide, rfl, rfl⟩

/-- C4 (amended): in subject mode at most one of `subjectScore` and
`subjectRating` is set on an emitted record (never both), because the
backward scan stops at its first valid match. -/
theorem c4_at_most_one_subject_field (row : List Cell) (f : StudentFields)
    (h : processRow .SUBJECT row = some f) :
    f.subjectScore = none ∨ f.subjectRating = none := by
  have hf := processRow_subject_eq h
  subst hf
  simpa [subjectScan] using subjScanRev_not_both (nameSuffix row).reverse

/-- Witness for the amended C4 theorem at a concrete emitted record. -/
theorem c4_witness :
    ({ name := "An Hùng", subjectRating := some "T" } : StudentFields).subjectScore = none ∨
    ({ name := "An Hùng", subjectRating := some "T" } : StudentFields).subjectRating = none :=
  c4_at_most_one_subject_field [.str "1", .str "An", .str "Hùng", .str "8", .str "T"]
    { name := "An Hùng", subjectRating := some "T" } (by decide)

/-- C2: in homeroom mode, for every emitted record the ratings are exactly
the rating-matching suffix cells in encounter order — the first becomes
`academicResult`, the second `conductRating`, further ones are discarded —
the absence count is the last in-range bare-integer suffix cell, and no
cell is counted both as a rating and as an absence.  The concrete row
`["3", "Lê Văn Cường", "T", "Đ", "2"]` yields
`academicResult = "T"`, `conductRating = "Đ"`, `absences = 2`. -/
theorem c2_homeroom_extraction :
    (∀ row f, processRow .HOMEROOM row = some f →
       f.academicResult = ((nameSuffix row).filterMap hrRatingOf).head? ∧
       f.conductRating = ((nameSuffix row).filterMap hrRatingOf)[1]? ∧
       f.absences = ((nameSuffix row).filterMap hrAbsOf).getLast? ∧
       ∀ c ∈ nameSuffix row, hrRatingOf c = none ∨ hrAbsOf c = none) ∧
    processRow .HOMEROOM [.str "3", .str "Lê Văn Cường", .str "T", .str "Đ", .str "2"] =
      some { name := "Lê Văn Cường", academicResult := some "T",
             conductRating := some "Đ", absences := some 2 } := by
  constructor
  · intro row f h
    have hf := processRow_homeroom_eq h
    subst hf
    refine ⟨?_, ?_, ?_, fun c _ => hrRating_abs_exclusive c⟩ <;>
      simp [homeroomScan_eq]
  · decide

/-- Witness for the universal part of C2 at the concrete example row. -/
theorem c2_witness :
    ({ name := "Lê Văn Cường", academicResult := some "T", conductRating := some "Đ",
       absences := some 2 } : StudentFields).academicResult =
      ((nameSuffix [.str "3", .str "Lê Văn Cường", .str "T", .str "Đ", .str "2"]).filterMap
        hrRatingOf).head? ∧
    ({ name := "Lê Văn Cường", academicResult := some "T", conductRating := some "Đ",
       absences := some 2 } : StudentFields).absences =
      ((nameSuffix [.str "3", .str "Lê Văn Cường", .str "T", .str "Đ", .str "2"]).filterMap
        hrAbsOf).getLast? := by
  have h := c2_homeroom_extraction.1 [.str "3", .str "Lê Văn Cường", .str "T", .str "Đ", .str "2"]
    { name := "Lê Văn Cường", academicResult := some "T", conductRating := some "Đ",
      absences := some 2 } (by decide)
  exact ⟨h.1, h.2.2.1⟩

/-- C3, counterexample to the claim as stated: the leading-index test
accepts any numeric first cell with value in (0, 1000), not only integers.
The row `[8.5, "An", "Hùng"]` (numeric first cell 8.5, valid name, no data
cells) is emitted even though its first cell holds no positive integer and
the subject scan extracted nothing. -/
theorem c3_counterexample :
    processRow .SUBJECT [.num (mkRat 17 2), .str "An", .str "Hùng"] =
      some { name := "An Hùng" } ∧
    ([.num (mkRat 17 2), .str "An", .str "Hùng"] : List Cell).head? =
      some (.num (mkRat 17 2)) ∧
    (mkRat 17 2).den ≠ 1 ∧
    ({ name := "An Hùng" } : StudentFields).subjectScore = none ∧
    ({ name := "An Hùng" } : StudentFields).subjectRating = none :=
  ⟨by decide, rfl, by decide, rfl, rfl⟩

/-- C3 (amended): the structural-evidence gate with the index test as the
code performs it (`hasIndex`: a numeric first cell — integral or not — or
an all-digit first cell, with value in (0, 1000)).  A record is emitted
only if the row has such a leading index or the mode-dependent scan set at
least one data field; a row whose name scan found no name parts is never
emitted; and conversely a row with a leading index and an accepted name
whose subject scan found nothing is still emitted, with both
`subjectScore` and `subjectRating` undefined. -/
theorem c3_structural_evidence_gate :
    (∀ role row f, processRow role row = some f →
       hasIndex row = true ∨
         (match role with
          | .SUBJECT => f.subjectScore ≠ none ∨ f.subjectRating ≠ none
          | .HOMEROOM => f.academicResult ≠ none ∨ f.conductRating ≠ none ∨
              f.absences ≠ none)) ∧
    (∀ role row, (nameScanA row).1 = [] → processRow role row = none) ∧
    (∀ row, hasIndex row = true → nameAccepted (rowFullName row) = true →
       subjectScan (nameSuffix row) = (none, none) →
       processRow .SUBJECT row = some { name := rowFullName row }) := by
  refine ⟨?_, fun _ _ h => processRow_no_name h,
    fun _ hi hacc hscan => processRow_subject_index_only hi hacc hscan⟩
  intro role row f h
  have hg := processRow_emits_gate h
  cases role <;> exact hg

/-- Witness for C3 at concrete rows: the gate direction at an emitted
record, and the converse at an index-and-name-only row. -/
theorem c3_witness :
    (hasIndex [.str "1", .str "An", .str "Hùng"] = true ∨
      (({ name := "An Hùng" } : StudentFields).subjectScore ≠ none ∨
        ({ name := "An Hùng" } : StudentFields).subjectRating ≠ none)) ∧
    processRow .SUBJECT [.str "1", .str "An", .str "Hùng"] =
      some { name := rowFullName [.str "1", .str "An", .str "Hùng"] } :=
  ⟨c3_structural_evidence_gate.1 .SUBJECT [.str "1", .str "An", .str "Hùng"]
     { name := "An Hùng" } (by decide),
   c3_structural_evidence_gate.2.2 [.str "1", .str "An", .str "Hùng"]
     (by decide) (by decide) (by decide)⟩

/-- C5: the row `["1", "Nguyễn", "Văn", "An", "8.5"]` in subject mode
yields exactly one record, with `name = "Nguyễn Văn An"` (the space-join
of the consecutive name-part cells after the leading numeric cell) and
`subjectScore = 8.5`; and in general the name span ends exactly at the
first cell that is neither a name-part candidate nor a blank immediately
followed by a name-part candidate (the scan's remaining suffix starts at
such a cell, or the row was exhausted). -/
theorem c5_name_span_reconstruction :
    (parseGrid [[.str "1", .str "Nguyễn", .str "Văn", .str "An", .str "8.5"]] .SUBJECT 0).students =
      [{ name := "Nguyễn Văn An", subjectScore := some (mkRat 17 2),
         id := "student-xls-0-0" }] ∧
    ∀ cells : List Cell,
      (∃ pre, cells = pre ++ (nameScanB cells).2) ∧
      ((nameScanB cells).2 = [] ∨
        ∃ c rest2, (nameScanB cells).2 = c :: rest2 ∧ isNamePart c = false ∧
          (cellBlank c = true → Option.all (fun c2 => !isNamePart c2) rest2.head? = true)) :=
  ⟨by decide, nameScanB_suffix_spec⟩

/-- Witness for C5: the span-end characterization instantiated at the
phase-two cell list of the example row. -/
theorem c5_witness :
    ∃ pre, ([.str "Văn", .str "An", .str "8.5"] : List Cell) =
      pre ++ (nameScanB [.str "Văn", .str "An", .str "8.5"]).2 :=
  (c5_name_span_reconstruction.2 [.str "Văn", .str "An", .str "8.5"]).1

/-- C6: subject detection — a flattened, lower-cased header block
containing the substring `toán` yields the label `Toán`; a block containing
none of the recognized subject keywords yields no label; and every label
the detector can return belongs to the fixed closed set of twelve canonical
subject labels. -/
theorem c6_subject_detection :
    (∀ headers, strIncludes (flatHeaders headers) "toán" = true →
       detectSubject headers = some "Toán") ∧
    (∀ headers, (∀ k ∈ subjectKeywords, strIncludes (flatHeaders headers) k = false) →
       detectSubject headers = none) ∧
    (∀ headers s, detectSubject headers = some s → s ∈ subjectLabels) := by
  refine ⟨?_, ?_, ?_⟩
  · intro headers h
    simp [detectSubject, h]
  · intro headers h
    simp only [subjectKeywords, List.mem_cons, List.not_mem_nil] at h
    have k0 : strIncludes (flatHeaders headers) "toán" = false := h "toán" (by decide)
    have k1 : strIncludes (flatHeaders headers) "văn" = false := h "văn" (by decide)
    have k2 : strIncludes (flatHeaders headers) "việt" = false := h "việt" (by decide)
    have k3 : strIncludes (flatHeaders headers) "ngữ" = false := h "ngữ" (by decide)
    have k4 : strIncludes (flatHeaders headers) "lịch sử" = false := h "lịch sử" (by decide)
    have k5 : strIncludes (flatHeaders headers) "địa lý" = false := h "địa lý" (by decide)
    have k6 : strIncludes (flatHeaders headers) "sử" = false := h "sử" (by decide)
    have k7 : strIncludes (flatHeaders headers) "địa" = false := h "địa" (by decide)
    have k8 : strIncludes (flatHeaders headers) "khoa học tự nhiên" = false := h "khoa học tự nhiên" (by decide)
    have k9 : strIncludes (flatHeaders headers) "khtn" = false := h "khtn" (by decide)
    have k10 : strIncludes (flatHeaders headers) "lý" = false := h "lý" (by decide)
    have k11 : strIncludes (flatHeaders headers) "hóa" = false := h "hóa" (by decide)
    have k12 : strIncludes (flatHeaders headers) "sinh" = false := h "sinh" (by decide)
    have k13 : strIncludes (flatHeaders headers) "vật lý" = false := h "vật lý" (by decide)
    have k14 : strIncludes (flatHeaders headers) "vật lí" = false := h "vật lí" (by decide)
    have k15 : strIncludes (flatHeaders headers) "sinh học" = false := h "sinh học" (by decide)
    have k16 : strIncludes (flatHeaders headers) "hóa học" = false := h "hóa học" (by decide)
    have k17 : strIncludes (flatHeaders headers) "tin" = false := h "tin" (by decide)
    have k18 : strIncludes (flatHeaders headers) "tin học" = false := h "tin học" (by decide)
    have k19 : strIncludes (flatHeaders headers) "anh" = false := h "anh" (by decide)
    have k20 : strIncludes (flatHeaders headers) "ngoại ngữ" = false := h "ngoại ngữ" (by decide)
    have k21 : strIncludes (flatHeaders headers) "tiếng anh" = false := h "tiếng anh" (by decide)
    have k22 : strIncludes (flatHeaders headers) "gdcd" = false := h "gdcd" (by decide)
    have k23 : strIncludes (flatHeaders headers) "công dân" = false := h "công dân" (by decide)
    have k24 : strIncludes (flatHeaders headers) "công nghệ" = false := h "công nghệ" (by decide)
    have k25 : strIncludes (flatHeaders headers) "thể dục" = false := h "thể dục" (by decide)
    have k26 : strIncludes (flatHeaders headers) "gdtc" = false := h "gdtc" (by decide)
    have k27 : strIncludes (flatHeaders headers) "thể chất" = false := h "thể chất" (by decide)
    have k28 : strIncludes (flatHeaders headers) "nhạc" = false := h "nhạc" (by decide)
    have k29 : strIncludes (flatHeaders headers) "mỹ thuật" = false := h "mỹ thuật" (by decide)
    have k30 : strIncludes (flatHeaders headers) "âm nhạc" = false := h "âm nhạc" (by decide)
    have k31 : strIncludes (flatHeaders headers) "nghệ thuật" = false := h "nghệ thuật" (by decide)
    have k32 : strIncludes (flatHeaders headers) "địa phương" = false := h "địa phương" (by decide)
    have k33 : strIncludes (flatHeaders headers) "ndgdcđp" = false := h "ndgdcđp" (by decide)
    have k34 : strIncludes (flatHeaders headers) "trải nghiệm" = false := h "trải nghiệm" (by decide)
    have k35 : strIncludes (flatHeaders headers) "hướng nghiệp" = false := h "hướng nghiệp" (by decide)
    have k36 : strIncludes (flatHeaders headers) "hđtn" = false := h "hđtn" (by decide)
    simp only [detectSubject]
    rw [if_neg (by simp [k0]),
        if_neg (by simp [k1, k2, k3]),
        if_neg (by simp [k4, k5, k6, k7]),
        if_neg (by simp [k8, k9, k10, k11, k12, k13, k14, k15, k16]),
        if_neg (by simp [k17, k18]),
        if_neg (by simp [k19, k20, k21]),
        if_neg (by simp [k22, k23]),
        if_neg (by simp [k24]),
        if_neg (by simp [k25, k26, k27]),
        if_neg (by simp [k28, k29, k30, k31]),
        if_neg (by simp [k32, k33]),
        if_neg (by simp [k34, k35, k36])]
  · intro headers s h
    simp only [detectSubject] at h
    by_cases c0 : (strIncludes (flatHeaders headers) "toán") = true
    · rw [if_pos c0] at h
      cases h
      decide
    rw [if_neg c0] at h
    by_cases c1 : (strIncludes (flatHeaders headers) "văn" || strIncludes (flatHeaders headers) "việt" || strIncludes (flatHeaders headers) "ngữ") = true
    · rw [if_pos c1] at h
      cases h
      decide
    rw [if_neg c1] at h
    by_cases c2 : (strIncludes (flatHeaders headers) "lịch sử" || strIncludes (flatHeaders headers) "địa lý" || strIncludes (flatHeaders headers) "sử" || strIncludes (flatHeaders headers) "địa") = true
    · rw [if_pos c2] at h
      cases h
      decide
    rw [if_neg c2] at h
    by_cases c3 : (strIncludes (flatHeaders headers) "khoa học tự nhiên" || strIncludes (flatHeaders headers) "khtn" || strIncludes (flatHeaders headers) "lý" || strIncludes (flatHeaders headers) "hóa" || strIncludes (flatHeaders headers) "sinh" || strIncludes (flatHeaders headers) "vật lý" || strIncludes (flatHeaders headers) "vật lí" || strIncludes (flatHeaders headers) "sinh học" || strIncludes (flatHeaders headers) "hóa học") = true
    · rw [if_pos c3] at h
      cases h
      decide
    rw [if_neg c3] at h
    by_cases c4 : (strIncludes (flatHeaders headers) "tin" || strIncludes (flatHeaders headers) "tin học") = true
    · rw [if_pos c4] at h
      cases h
      decide
    rw [if_neg c4] at h
    by_cases c5 : (strIncludes (flatHeaders headers) "anh" || strIncludes (flatHeaders headers) "ngoại ngữ" || strIncludes (flatHeaders headers) "tiếng anh") = true
    · rw [if_pos c5] at h
      cases h
      decide
    rw [if_neg c5] at h
    by_cases c6 : (strIncludes (flatHeaders headers) "gdcd" || strIncludes (flatHeaders headers) "công dân") = true
    · rw [if_pos c6] at h
      cases h
      decide
    rw [if_neg c6] at h
    by_cases c7 : (strIncludes (flatHeaders headers) "công nghệ") = true
    · rw [if_pos c7] at h
      cases h
      decide
    rw [if_neg c7] at h
    by_cases c8 : (strIncludes (flatHeaders headers) "thể dục" || strIncludes (flatHeaders headers) "gdtc" || strIncludes (flatHeaders headers) "thể chất") = true
    · rw [if_pos c8] at h
      cases h
      decide
    rw [if_neg c8] at h
    by_cases c9 : (strIncludes (flatHeaders headers) "nhạc" || strIncludes (flatHeaders headers) "mỹ thuật" || strIncludes (flatHeaders headers) "âm nhạc" || strIncludes (flatHeaders headers) "nghệ thuật") = true
    · rw [if_pos c9] at h
      cases h
      decide
    rw [if_neg c9] at h
    by_cases c10 : (strIncludes (flatHeaders headers) "địa phương" || strIncludes (flatHeaders headers) "ndgdcđp") = true
    · rw [if_pos c10] at h
      cases h
      decide
    rw [if_neg c10] at h
    by_cases c11 : (strIncludes (flatHeaders headers) "trải nghiệm" || strIncludes (flatHeaders headers) "hướng nghiệp" || strIncludes (flatHeaders headers) "hđtn") = true
    · rw [if_pos c11] at h
      cases h
      decide
    rw [if_neg c11] at h
    exact absurd h (by simp)

/-- Witness for C6: a Toán header block and a keyword-free block. -/
theorem c6_witness :
    detectSubject [[Cell.str "BẢNG ĐIỂM MÔN TOÁN", Cell.empty], [Cell.str "Lớp 6A"]] =
      some "Toán" ∧
    detectSubject [[Cell.str "hello world"]] = none :=
  ⟨c6_subject_detection.1 _ (by decide), c6_subject_detection.2.1 _ (by decide)⟩

/-- C7: the extractor is total — the exception of the container reader is
caught and, in every degenerate case (unreadable byte stream, workbook
without sheets, missing first sheet, empty grid, or a grid in which no row
qualifies), the returned student list is empty.  (In the embedding the
absence of thrown exceptions is intrinsic: `parseExcelData` is a total
function whose `Except.error` input models the only exception source, the
external reader, and maps it to the empty result exactly as the source's
try/catch does.) -/
theorem c7_no_throw_degenerate_empty (inp : Except Unit Workbook)
    (role : TeacherRole) (now : Nat) :
    (∀ e, inp = .error e → parseExcelData inp role now = { students := [] }) ∧
    (∀ wb, inp = .ok wb → wb.sheetNames = [] →
       parseExcelData inp role now = { students := [] }) ∧
    (∀ wb n rest, inp = .ok wb → wb.sheetNames = n :: rest → lookupSheet wb n = none →
       parseExcelData inp role now = { students := [] }) ∧
    (∀ wb n rest, inp = .ok wb → wb.sheetNames = n :: rest →
       lookupSheet wb n = some [] →
       parseExcelData inp role now = { students := [] }) ∧
    (∀ wb n rest g, inp = .ok wb → wb.sheetNames = n :: rest →
       lookupSheet wb n = some g → (∀ row ∈ g, processRow role row = none) →
       (parseExcelData inp role now).students = []) := by
  refine ⟨?_, ?_, ?_, ?_, ?_⟩
  · intro e he
    subst he
    rfl
  · intro wb hok hnames
    subst hok
    simp [parseExcelData, hnames]
  · intro wb n rest hok hnames hlook
    subst hok
    simp [parseExcelData, hnames, hlook]
  · intro wb n rest hok hnames hlook
    subst hok
    simp [parseExcelData, hnames, hlook, parseGrid]
  · intro wb n rest g hok hnames hlook hnone
    subst hok
    simp only [parseExcelData, hnames, hlook, parseGrid]
    split
    · rfl
    · simp only [List.filterMap_eq_nil_iff]
      intro p hp
      rw [hnone p.2 (mem_enumFrom_snd g 0 p hp)]
      rfl

/-- Witness for C7: the unreadable-container case at a concrete input. -/
theorem c7_witness : parseExcelData (.error ()) .SUBJECT 0 = { students := [] } :=
  (c7_no_throw_degenerate_empty (.error ()) .SUBJECT 0).1 () rfl

/-- C8: extraction is deterministic in everything but the ids — two runs on
the same input and role, at different timestamps, agree on the projection
of every record to its data fields (hence also on list length and on each
record's name, scores, ratings and absences) and on the detected subject;
only the ids, which embed the timestamp, may differ. -/
theorem c8_determinism (inp : Except Unit Workbook) (role : TeacherRole) (t1 t2 : Nat) :
    (parseExcelData inp role t1).students.map StudentData.toStudentFields =
      (parseExcelData inp role t2).students.map StudentData.toStudentFields ∧
    (parseExcelData inp role t1).detectedSubject =
      (parseExcelData inp role t2).detectedSubject := by
  have key : ∀ (g : List (List Cell)) (t : Nat),
      (parseGrid g role t).students.map StudentData.toStudentFields =
        g.enum.filterMap (fun p => processRow role p.2) := by
    intro g t
    simp only [parseGrid]
    split
    next he =>
      rw [List.isEmpty_iff.mp he]
      rfl
    next he =>
      simp [List.map_filterMap, Option.map_map, Function.comp_def, mkXls_toFields]
  have key2 : ∀ (g : List (List Cell)) (t : Nat),
      (parseGrid g role t).detectedSubject =
        (if g.isEmpty then none else detectSubject (g.take 5)) := by
    intro g t
    simp only [parseGrid]
    split <;> simp_all
  cases inp with
  | error e => exact ⟨rfl, rfl⟩
  | ok wb =>
    cases hn : wb.sheetNames with
    | nil => simp [parseExcelData, hn]
    | cons n rest =>
      cases hl : lookupSheet wb n with
      | none => simp [parseExcelData, hn, hl]
      | some g => simp [parseExcelData, hn, hl, key, key2]

/-- C10: the detected subject depends only on the first five rows of the
first sheet's grid: two parseable workbooks whose first-sheet grids agree
on rows 0 through 4 produce the same `detectedSubject`, whatever the
remaining rows, the roles and the timestamps. -/
theorem c10_detect_first_five_rows
    (wb1 wb2 : Workbook) (role1 role2 : TeacherRole) (t1 t2 : Nat)
    (n1 : String) (r1 : List String) (g1 : List (List Cell))
    (n2 : String) (r2 : List String) (g2 : List (List Cell))
    (h1 : wb1.sheetNames = n1 :: r1) (hl1 : lookupSheet wb1 n1 = some g1)
    (h2 : wb2.sheetNames = n2 :: r2) (hl2 : lookupSheet wb2 n2 = some g2)
    (htake : g1.take 5 = g2.take 5) :
    (parseExcelData (.ok wb1) role1 t1).detectedSubject =
      (parseExcelData (.ok wb2) role2 t2).detectedSubject := by
  simp only [parseExcelData, h1, hl1, h2, hl2, parseGrid]
  by_cases he1 : g1 = []
  · have he2 : g2 = [] := by
      have ht := htake
      rw [he1] at ht
      rcases List.take_eq_nil_iff.mp ht.symm with h | h
      · exact absurd h (by decide)
      · exact h
    subst he1
    subst he2
    rfl
  · have he2 : g2 ≠ [] := by
      intro he2
      rw [he2] at htake
      rcases List.take_eq_nil_iff.mp htake with h | h
      · exact absurd h (by decide)
      · exact absurd h he1
    rw [if_neg (by simpa [List.isEmpty_iff] using he1),
        if_neg (by simpa [List.isEmpty_iff] using he2)]
    rw [htake]

/-- Witness for C10 at two concrete workbooks differing below row 5. -/
theorem c10_witness :
    (parseExcelData (.ok ⟨["S"], [("S", [[Cell.str "Toán"]])]⟩) .SUBJECT 0).detectedSubject =
      (parseExcelData (.ok ⟨["B"], [("B", [[Cell.str "Toán"]])]⟩) .HOMEROOM 1).detectedSubject :=
  c10_detect_first_five_rows _ _ _ _ _ _ "S" [] [[Cell.str "Toán"]] "B" [] [[Cell.str "Toán"]]
    rfl (by decide) rfl (by decide) rfl

/-- C9 (implicit): the text-paste path applies no range check to the
score: whenever the line's trailing segment parses as a (finite) number,
that number becomes `subjectScore` — even outside [0, 10].  The line
consisting of a name, a tab and `85` yields a record with
`subjectScore = 85`, while the grid path on the corresponding row accepts
only numbers in [0, 10] and emits the record with no score at all. -/
theorem c9_text_score_no_range_check :
    (∀ line f lp q, processTextLine .SUBJECT line = some f →
       textLastPart (jsTrim line) = some lp → jsParseFloat lp = some q →
       f.subjectScore = some q) ∧
    processTextLine .SUBJECT "Nguyễn Văn An\t85" =
      some { name := "Nguyễn Văn An", subjectScore := some (mkRat 85 1) } ∧
    ¬(mkRat 85 1 ≤ 10) ∧
    processRow .SUBJECT [.str "1", .str "Nguyễn", .str "Văn", .str "An", .str "85"] =
      some { name := "Nguyễn Văn An" } := by
  refine ⟨?_, by decide, by decide, by decide⟩
  intro line f lp q h hlp hq
  simp only [processTextLine] at h
  split at h
  · exact absurd h (by simp)
  · split at h
    · exact absurd h (by simp)
    · split at h
      · exact absurd h (by simp)
      · simp only [hlp, hq] at h
        rw [← Option.some_inj.mp h]

/-- Witness for C9's universal part at the concrete tab-separated line. -/
theorem c9_witness :
    ({ name := "Nguyễn Văn An", subjectScore := some (mkRat 85 1) } :
        StudentFields).subjectScore = some (mkRat 85 1) :=
  c9_text_score_no_range_check.1 "Nguyễn Văn An\t85"
    { name := "Nguyễn Văn An", subjectScore := some (mkRat 85 1) } "85" (mkRat 85 1)
    (by decide) (by decide) (by decide)

/-- Witness for C8 at a concrete workbook and two timestamps. -/
theorem c8_witness :
    (parseExcelData (.ok ⟨["S"], [("S", [[Cell.str "1", Cell.str "An", Cell.str "Hùng"]])]⟩)
        .SUBJECT 3).students.map StudentData.toStudentFields =
      (parseExcelData (.ok ⟨["S"], [("S", [[Cell.str "1", Cell.str "An", Cell.str "Hùng"]])]⟩)
        .SUBJECT 7).students.map StudentData.toStudentFields :=
  (c8_determinism (.ok ⟨["S"], [("S", [[Cell.str "1", Cell.str "An", Cell.str "Hùng"]])]⟩)
    .SUBJECT 3 7).1
